import Mathlib

/- Verification development for the GCP data handler (src/gcp_handler.py).

   The handler exposes five operations (get_projects, get_datasets, get_tables,
   read_table, get_table_schema).  Each operation accepts credentials either as
   a plain record (a Python dict with the six fields token, refresh_token,
   token_uri, client_id, client_secret, scopes) or as a live
   google.oauth2.credentials.Credentials object, converts the record form to
   the live form, and runs the remote call through a memoizing cache with a
   300 second timeout.  The memoizing cache itself and the BaseDataHandler
   class are injected dependencies of the repository that are not under src/;
   where a definition models them it is marked `Modelled from the spec:` and
   follows the specification text (CacheKeyBuilder, MemoizingInvoker). -/

/-- A Python value as it occurs in a credential record: None, a string, or a
list of strings (the scopes field). -/
inductive PyVal where
  | pyNone
  | pyStr (s : String)
  | pyList (l : List String)
deriving DecidableEq, Repr

/-- A Python dict holding a credential record, as an association list from
field names to values. -/
abbrev CredDict := List (String × PyVal)

/-- The live credential form: the six fields stored by the constructor of
google.oauth2.credentials.Credentials that the handler reads back in
GCPDataHandler._credentials_to_dict (src/gcp_handler.py lines 90-101). -/
structure Credentials where
  token : PyVal
  refresh_token : PyVal
  token_uri : PyVal
  client_id : PyVal
  client_secret : PyVal
  scopes : PyVal
deriving DecidableEq, Repr

/-- The six field names of the record form, in the order used by
GCPDataHandler._credentials_to_dict. -/
def credentialKeys : List String :=
  ["token", "refresh_token", "token_uri", "client_id", "client_secret", "scopes"]

/-- GCPDataHandler._dict_to_credentials (src/gcp_handler.py lines 84-88):
calls the constructor google.oauth2.credentials.Credentials with the dict
splatted as keyword arguments.  The constructor stores each supplied field
and defaults every absent field to None; it performs no validation.  A dict
with a key outside the record fields, or without the required token key,
raises TypeError (modelled as the error branch).  The model restricts the
accepted keyword names to the six record fields. -/
def dict_to_credentials (d : CredDict) : Except String Credentials :=
  if d.all (fun p => credentialKeys.contains p.1) then
    match d.lookup "token" with
    | some tok =>
        .ok { token := tok
              refresh_token := (d.lookup "refresh_token").getD .pyNone
              token_uri := (d.lookup "token_uri").getD .pyNone
              client_id := (d.lookup "client_id").getD .pyNone
              client_secret := (d.lookup "client_secret").getD .pyNone
              scopes := (d.lookup "scopes").getD .pyNone }
    | none => .error "TypeError: missing required argument token"
  else .error "TypeError: unexpected keyword argument"

/-- GCPDataHandler._credentials_to_dict (src/gcp_handler.py lines 90-101):
reads the six fields back into a dict, in the order written in the source. -/
def credentials_to_dict (c : Credentials) : CredDict :=
  [("token", c.token),
   ("refresh_token", c.refresh_token),
   ("token_uri", c.token_uri),
   ("client_id", c.client_id),
   ("client_secret", c.client_secret),
   ("scopes", c.scopes)]

/-- The credential argument accepted by every operation: either the record
form (a dict) or the live form. -/
inductive CredInput where
  | record (d : CredDict)
  | live (c : Credentials)

/-- The isinstance branch at the top of every operation (for example
src/gcp_handler.py lines 120-122): a dict is converted with
_dict_to_credentials, a live object is passed through. -/
def normalize_credentials : CredInput → Except String Credentials
  | .record d => dict_to_credentials d
  | .live c => .ok c

/-- A dict reduced to its values at the six record field names; two dicts
whose keys all lie among the six record fields are equal as Python dicts
exactly when their canonical forms are equal. -/
def canonicalRecord (d : CredDict) : List (String × Option PyVal) :=
  credentialKeys.map (fun k => (k, d.lookup k))

/-- A well-formed credential record: a dict whose keys are exactly the six
record fields (in any order, without repetition). -/
def wellFormedRecord (d : CredDict) : Prop :=
  List.Perm (d.map Prod.fst) credentialKeys

instance (d : CredDict) : Decidable (wellFormedRecord d) :=
  List.decidablePerm (d.map Prod.fst) credentialKeys

/-- Modelled from the spec: an injective encoding of a list into a natural
number, used to build the credential fingerprint of the CacheKeyBuilder
(spec section 4.1); the fingerprinting code is part of the injected cache,
which is not under src/. -/
def encodeList {α : Type} (f : α → Nat) : List α → Nat
  | [] => 0
  | x :: t => Nat.pair (f x) (encodeList f t) + 1

/-- Modelled from the spec: injective encoding of a string. -/
def encodeString (s : String) : Nat :=
  encodeList Char.toNat s.data

/-- Modelled from the spec: injective encoding of a Python credential value. -/
def encodePyVal : PyVal → Nat
  | .pyNone => 0
  | .pyStr s => Nat.pair 0 (encodeString s) + 1
  | .pyList l => Nat.pair 1 (encodeList encodeString l) + 1

/-- Modelled from the spec: the fingerprint of a credential record (spec
section 4.1) — a stable digest over all six fields, collision-free and not
containing any field verbatim; derived from the live form, whose fields are
exactly the record fields. -/
def fingerprintCred (c : Credentials) : Nat :=
  encodeList encodePyVal
    [c.token, c.refresh_token, c.token_uri, c.client_id, c.client_secret, c.scopes]

/-- Modelled from the spec: a primitive argument value as serialized into a
cache key (spec section 4.2) — strings, integers, and optional values
explicitly tagged present or absent. -/
inductive ArgVal where
  | str (v : String)
  | int (v : Int)
  | optInt (v : Option Int)
  | optStr (v : Option String)
deriving DecidableEq, Repr

/-- Modelled from the spec: the cache key (spec section 3) — operation name,
ordered argument list, and the credential fingerprint; the key builder is
part of the injected cache, which is not under src/. -/
structure CacheKey where
  operationName : String
  args : List ArgVal
  credentialFingerprint : Nat
deriving DecidableEq, Repr

/-- Modelled from the spec: CacheKeyBuilder.build (spec section 4.2). -/
def build (operation : String) (args : List ArgVal) (fingerprint : Nat) : CacheKey :=
  ⟨operation, args, fingerprint⟩

/-- The strings a single serialized argument exposes verbatim. -/
def argStrings : ArgVal → List String
  | .str v => [v]
  | .int _ => []
  | .optInt _ => []
  | .optStr Option.none => []
  | .optStr (some v) => [v]

/-- All strings a cache key exposes verbatim: the operation name and the
string payloads of the arguments; the credential fingerprint is a digest
and exposes no string. -/
def CacheKey.verbatimStrings (k : CacheKey) : List String :=
  k.operationName :: (k.args.map argStrings).flatten

/-- The cache key an operation ends up keyed under, for a credential input in
either representation: normalize, then build from the fingerprint. -/
def credInputKey (op : String) (args : List ArgVal) (cred : CredInput) :
    Except String CacheKey :=
  (normalize_credentials cred).map (fun c => build op args (fingerprintCred c))

/-- Modelled from the spec: a cache entry (spec section 3). -/
structure CacheEntry (V : Type) where
  value : V
  expiresAt : Nat

/-- Modelled from the spec: the backing store, newest entry first. -/
abbrev CacheStore (V : Type) := List (CacheKey × CacheEntry V)

/-- Modelled from the spec: store lookup. -/
def storeGet {V : Type} (s : CacheStore V) (k : CacheKey) : Option (CacheEntry V) :=
  match s.find? (fun p => p.1 == k) with
  | some p => some p.2
  | none => none

/-- The outcome of one memoized invocation: the result handed to the caller,
the store afterwards, and whether the producer ran (the call counter of the
spec, section 8). -/
structure InvokeResult (V E : Type) where
  result : Except E V
  store : CacheStore V
  producerCalled : Bool

/-- Modelled from the spec: MemoizingInvoker.invoke (spec section 4.3) — the
memoizing decorator cache.memoize applied at every operation of
src/gcp_handler.py is part of the injected cache, which is not under src/.
On a hit (entry present, now at most expiresAt) the cached value is returned
and the producer does not run; otherwise the producer runs, a failure
propagates with nothing stored, and a success is stored with expiry
now + ttl. -/
def invoke {V E : Type} (store : CacheStore V) (now : Nat) (key : CacheKey)
    (ttl : Nat) (producer : Unit → Except E V) : InvokeResult V E :=
  match storeGet store key with
  | some entry =>
      if now ≤ entry.expiresAt then ⟨.ok entry.value, store, false⟩
      else
        match producer () with
        | .error e => ⟨.error e, store, true⟩
        | .ok v => ⟨.ok v, (key, ⟨v, now + ttl⟩) :: store, true⟩
  | none =>
      match producer () with
      | .error e => ⟨.error e, store, true⟩
      | .ok v => ⟨.ok v, (key, ⟨v, now + ttl⟩) :: store, true⟩

/-- GCPDataHandler.cache_timeout (src/gcp_handler.py lines 62-64). -/
def cache_timeout : Nat := 300

/-- Python truthiness of an optional string: false for None and for the
empty string. -/
def pyTruthyStr : Option String → Bool
  | Option.none => false
  | some s => !s.isEmpty

/-- Python truthiness of an optional integer: false for None and for zero. -/
def pyTruthyInt : Option Int → Bool
  | Option.none => false
  | some n => n != 0

/-- The query construction of GCPDataHandler.read_table._read_table
(src/gcp_handler.py lines 199-205): a truthy custom_query is used verbatim;
otherwise SELECT * over the backtick-quoted fully-qualified table reference,
with LIMIT appended when limit is truthy. -/
def read_table_query (project_id dataset_id table_id : String)
    (limit : Option Int) (custom_query : Option String) : String :=
  let table_ref := project_id ++ "." ++ dataset_id ++ "." ++ table_id
  if pyTruthyStr custom_query then
    custom_query.getD ""
  else
    let query := "SELECT * FROM `" ++ table_ref ++ "`"
    if pyTruthyInt limit then query ++ " LIMIT " ++ toString (limit.getD 0)
    else query

/-- The error wrapping of GCPDataHandler.read_table._read_table
(src/gcp_handler.py lines 209-210): a remote failure is reraised with the
fully-qualified table reference and the cause message. -/
def wrap_read_error {V : Type} (project_id dataset_id table_id : String)
    (r : Except String V) : Except String V :=
  match r with
  | .ok v => .ok v
  | .error e =>
      .error ("Error reading table " ++
        (project_id ++ "." ++ dataset_id ++ "." ++ table_id) ++ ": " ++ e)

/-- GCPDataHandler.read_table._read_table (src/gcp_handler.py lines 194-210):
builds the query, sends it to the remote runQuery, and wraps any failure.
The remote BigQuery client is the opaque runQuery capability. -/
def _read_table {V : Type} (runQuery : String → Except String V)
    (project_id dataset_id table_id location : String)
    (limit : Option Int) (custom_query : Option String) : Except String V :=
  wrap_read_error project_id dataset_id table_id
    (runQuery (read_table_query project_id dataset_id table_id limit custom_query))

/-- GCPDataHandler.get_table_schema._get_table_schema (src/gcp_handler.py
lines 231-247): fetches the table over the fully-qualified reference and
wraps any failure with that reference and the cause message. -/
def _get_table_schema {V : Type} (getSchema : String → Except String V)
    (project_id dataset_id table_id location : String) : Except String V :=
  let table_ref := project_id ++ "." ++ dataset_id ++ "." ++ table_id
  match getSchema table_ref with
  | .ok v => .ok v
  | .error e => .error ("Error getting table schema for " ++ table_ref ++ ": " ++ e)

/-- The ordered argument list of read_table as it enters the cache key. -/
def read_table_args (project_id dataset_id table_id location : String)
    (limit : Option Int) (custom_query : Option String) : List ArgVal :=
  [.str project_id, .str dataset_id, .str table_id, .str location,
   .optInt limit, .optStr custom_query]

/-- GCPDataHandler.get_projects (src/gcp_handler.py lines 103-123): normalize
the credentials, then run the remote listing through the memoizing cache. -/
def get_projects {V : Type} (listProjects : Credentials → Except String V)
    (store : CacheStore V) (now : Nat) (cred : CredInput) : InvokeResult V String :=
  match normalize_credentials cred with
  | .error e => ⟨.error e, store, false⟩
  | .ok c =>
      invoke store now (build "get_projects" [] (fingerprintCred c)) cache_timeout
        (fun _ => listProjects c)

/-- GCPDataHandler.get_datasets (src/gcp_handler.py lines 125-145). -/
def get_datasets {V : Type} (listDatasets : Credentials → String → Except String V)
    (store : CacheStore V) (now : Nat) (cred : CredInput) (project_id : String) :
    InvokeResult V String :=
  match normalize_credentials cred with
  | .error e => ⟨.error e, store, false⟩
  | .ok c =>
      invoke store now (build "get_datasets" [.str project_id] (fingerprintCred c))
        cache_timeout (fun _ => listDatasets c project_id)

/-- GCPDataHandler.get_tables (src/gcp_handler.py lines 147-168). -/
def get_tables {V : Type}
    (listTables : Credentials → String → String → Except String V)
    (store : CacheStore V) (now : Nat) (cred : CredInput)
    (project_id dataset_id : String) : InvokeResult V String :=
  match normalize_credentials cred with
  | .error e => ⟨.error e, store, false⟩
  | .ok c =>
      invoke store now
        (build "get_tables" [.str project_id, .str dataset_id] (fingerprintCred c))
        cache_timeout (fun _ => listTables c project_id dataset_id)

/-- GCPDataHandler.read_table (src/gcp_handler.py lines 170-214). -/
def read_table {V : Type} (runQuery : String → Except String V)
    (store : CacheStore V) (now : Nat) (cred : CredInput)
    (project_id dataset_id table_id location : String)
    (limit : Option Int) (custom_query : Option String) : InvokeResult V String :=
  match normalize_credentials cred with
  | .error e => ⟨.error e, store, false⟩
  | .ok c =>
      invoke store now
        (build "read_table"
          (read_table_args project_id dataset_id table_id location limit custom_query)
          (fingerprintCred c))
        cache_timeout
        (fun _ => _read_table runQuery project_id dataset_id table_id location
          limit custom_query)

/-- GCPDataHandler.get_table_schema (src/gcp_handler.py lines 216-251). -/
def get_table_schema {V : Type} (getSchema : String → Except String V)
    (store : CacheStore V) (now : Nat) (cred : CredInput)
    (project_id dataset_id table_id location : String) : InvokeResult V String :=
  match normalize_credentials cred with
  | .error e => ⟨.error e, store, false⟩
  | .ok c =>
      invoke store now
        (build "get_table_schema"
          [.str project_id, .str dataset_id, .str table_id, .str location]
          (fingerprintCred c))
        cache_timeout
        (fun _ => _get_table_schema getSchema project_id dataset_id table_id location)

/-- GCPDataHandler.clear_cache (src/gcp_handler.py lines 253-257). -/
def clear_cache {V : Type} (_store : CacheStore V) : CacheStore V := []

/- Helper lemmas. -/

theorem char_toNat_inj : Function.Injective Char.toNat := by
  intro a b h
  exact Char.eq_of_val_eq (UInt32.eq_of_toBitVec_eq (BitVec.eq_of_toNat_eq h))

theorem encodeList_pos {α : Type} (f : α → Nat) (x : α) (t : List α) :
    0 < encodeList f (x :: t) := by
  simp [encodeList]

theorem encodeList_injective {α : Type} (f : α → Nat)
    (hf : Function.Injective f) : Function.Injective (encodeList f) := by
  intro l1 l2 h
  induction l1 generalizing l2 with
  | nil =>
      cases l2 with
      | nil => rfl
      | cons y u => exact absurd h.symm (Nat.ne_of_gt (encodeList_pos f y u))
  | cons x t ih =>
      cases l2 with
      | nil => exact absurd h (Nat.ne_of_gt (encodeList_pos f x t))
      | cons y u =>
          simp only [encodeList] at h
          have h2 := Nat.add_right_cancel h
          have h3 := Nat.pair_eq_pair.mp h2
          rw [hf h3.1, ih h3.2]

theorem encodeString_injective : Function.Injective encodeString := by
  intro s t h
  have hd : s.data = t.data := encodeList_injective Char.toNat char_toNat_inj h
  cases s
  cases t
  simp_all

theorem encodePyVal_injective : Function.Injective encodePyVal := by
  intro a b h
  cases a <;> cases b <;> simp only [encodePyVal] at h
  · rfl
  · exact absurd h (by omega)
  · exact absurd h (by omega)
  · exact absurd h (by omega)
  · have h3 := Nat.pair_eq_pair.mp (Nat.add_right_cancel h)
    rw [encodeString_injective h3.2]
  · exact absurd (Nat.pair_eq_pair.mp (Nat.add_right_cancel h)).1 (by omega)
  · exact absurd h (by omega)
  · exact absurd (Nat.pair_eq_pair.mp (Nat.add_right_cancel h)).1 (by omega)
  · have h3 := Nat.pair_eq_pair.mp (Nat.add_right_cancel h)
    rw [encodeList_injective encodeString encodeString_injective h3.2]

theorem fingerprintCred_injective : Function.Injective fingerprintCred := by
  intro c1 c2 h
  have hl := encodeList_injective encodePyVal encodePyVal_injective h
  cases c1
  cases c2
  simp_all

theorem lookup_isSome_of_mem_keys {β : Type} (k : String) (l : List (String × β))
    (h : k ∈ l.map Prod.fst) : (l.lookup k).isSome := by
  induction l with
  | nil => simp at h
  | cons p t ih =>
      simp only [List.map_cons, List.mem_cons] at h
      by_cases hk : k = p.1
      · simp [List.lookup, hk]
      · have hb : (k == p.1) = false := beq_false_of_ne hk
        simp only [List.lookup, hb]
        apply ih
        cases h with
        | inl h1 => exact absurd h1 hk
        | inr h2 => exact h2

theorem invoke_miss_ok {V E : Type} (store : CacheStore V) (now : Nat) (key : CacheKey)
    (ttl : Nat) (producer : Unit → Except E V) (v : V)
    (hmiss : storeGet store key = none) (hok : producer () = .ok v) :
    invoke store now key ttl producer = ⟨.ok v, (key, ⟨v, now + ttl⟩) :: store, true⟩ := by
  simp [invoke, hmiss, hok]

theorem invoke_miss_error {V E : Type} (store : CacheStore V) (now : Nat) (key : CacheKey)
    (ttl : Nat) (producer : Unit → Except E V) (e : E)
    (hmiss : storeGet store key = none) (hfail : producer () = .error e) :
    invoke store now key ttl producer = ⟨.error e, store, true⟩ := by
  simp [invoke, hmiss, hfail]

theorem invoke_hit {V E : Type} (store : CacheStore V) (now : Nat) (key : CacheKey)
    (ttl : Nat) (producer : Unit → Except E V) (entry : CacheEntry V)
    (hhit : storeGet store key = some entry) (hfresh : now ≤ entry.expiresAt) :
    invoke store now key ttl producer = ⟨.ok entry.value, store, false⟩ := by
  simp [invoke, hhit, hfresh]

theorem storeGet_cons_self {V : Type} (key : CacheKey) (entry : CacheEntry V)
    (store : CacheStore V) : storeGet ((key, entry) :: store) key = some entry := by
  simp [storeGet, List.find?]

/- Claim theorems. -/

/-- Claim C10 (confirmed): a custom_query supplied as the empty string is
falsy in Python, so read_table builds the same default SELECT query (with the
same LIMIT handling) as when custom_query is absent, and sends that to the
remote call instead of the empty string. -/
theorem claim_c10 (project_id dataset_id table_id location : String)
    (limit : Option Int) {V : Type} (runQuery : String → Except String V) :
    read_table_query project_id dataset_id table_id limit (some "") =
      read_table_query project_id dataset_id table_id limit Option.none ∧
    _read_table runQuery project_id dataset_id table_id location limit (some "") =
      _read_table runQuery project_id dataset_id table_id location limit Option.none := by
  constructor <;> rfl

/-- Claim C5 as stated is false: the empty string is a supplied custom_query,
yet the query sent to the remote call is the default SELECT query, not the
empty string verbatim. -/
theorem claim_c5_cex :
    read_table_query "p" "d" "t" Option.none (some "") = "SELECT * FROM `p.d.t`" ∧
    read_table_query "p" "d" "t" Option.none (some "") ≠ "" := by
  exact ⟨by decide, by decide⟩

/-- Claim C5 (corrected): for every call to read_table in which a nonempty
custom_query is supplied, the query string sent to the remote runQuery is
exactly the supplied custom_query, verbatim, with the limit argument
ignored. -/
theorem claim_c5 (q : String) (hq : q ≠ "") (project_id dataset_id table_id location : String)
    (limit : Option Int) {V : Type} (runQuery : String → Except String V) :
    read_table_query project_id dataset_id table_id limit (some q) = q ∧
    _read_table runQuery project_id dataset_id table_id location limit (some q) =
      wrap_read_error project_id dataset_id table_id (runQuery q) := by
  have hE : q.isEmpty = false := by
    rw [Bool.eq_false_iff]
    intro hc
    exact hq ((String.isEmpty_iff q).mp hc)
  have hT : pyTruthyStr (some q) = true := by simp [pyTruthyStr, hE]
  have h1 : read_table_query project_id dataset_id table_id limit (some q) = q := by
    simp [read_table_query, hT]
  exact ⟨h1, by simp [_read_table, h1]⟩

/-- Witness for C5 at a concrete input: SELECT 1 is sent verbatim even with a
limit supplied. -/
theorem claim_c5_witness :
    ("SELECT 1" : String) ≠ "" ∧
    read_table_query "p" "d" "t" (some 7) (some "SELECT 1") = "SELECT 1" := by
  refine ⟨by decide, ?_⟩
  exact (claim_c5 "SELECT 1" (by decide) "p" "d" "t" "US"
    (some 7) (fun _ => (.ok 0 : Except String Nat))).1

/-- Claim C6 as stated is false for negative limits: the source guards the
LIMIT clause with Python truthiness, so limit = -1 appends LIMIT -1 instead
of yielding no LIMIT clause. -/
theorem claim_c6_cex :
    read_table_query "p" "d" "t" (some (-1)) Option.none = "SELECT * FROM `p.d.t` LIMIT -1" ∧
    read_table_query "p" "d" "t" (some (-1)) Option.none ≠ "SELECT * FROM `p.d.t`" := by
  exact ⟨by decide, by decide⟩

/-- Claim C6 (corrected): with no custom_query the query sent is SELECT *
FROM the backtick-quoted fully-qualified reference, and LIMIT n is appended
exactly when the limit argument is present and nonzero — so an absent or
zero limit yields no LIMIT clause, while any nonzero limit (including a
negative one) appends its value. -/
theorem claim_c6 (project_id dataset_id table_id : String) :
    (read_table_query project_id dataset_id table_id Option.none Option.none =
      "SELECT * FROM `" ++ (project_id ++ "." ++ dataset_id ++ "." ++ table_id) ++ "`") ∧
    (read_table_query project_id dataset_id table_id (some 0) Option.none =
      "SELECT * FROM `" ++ (project_id ++ "." ++ dataset_id ++ "." ++ table_id) ++ "`") ∧
    (∀ n : Int, n ≠ 0 →
      read_table_query project_id dataset_id table_id (some n) Option.none =
        "SELECT * FROM `" ++ (project_id ++ "." ++ dataset_id ++ "." ++ table_id) ++ "`" ++
          " LIMIT " ++ toString n) := by
  refine ⟨rfl, rfl, ?_⟩
  intro n hn
  have hT : pyTruthyInt (some n) = true := by simp [pyTruthyInt, hn]
  simp [read_table_query, pyTruthyStr, hT]

/-- Witness for C6 at concrete inputs: limit 10 on table p.d.t appends
LIMIT 10, and an absent limit yields no LIMIT clause. -/
theorem claim_c6_witness :
    read_table_query "p" "d" "t" (some 10) Option.none = "SELECT * FROM `p.d.t` LIMIT 10" ∧
    read_table_query "p" "d" "t" Option.none Option.none = "SELECT * FROM `p.d.t`" := by
  refine ⟨((claim_c6 "p" "d" "t").2.2 10 (by decide)).trans (by decide),
    ((claim_c6 "p" "d" "t").1).trans (by decide)⟩

/-- Claim C9 (confirmed): when the remote call of read_table or
get_table_schema fails, the failure is wrapped into an error carrying the
fully-qualified table reference and the underlying cause message, and is
returned as an error to the caller — never swallowed. -/
theorem claim_c9 {V : Type} (runQuery getSchema : String → Except String V)
    (project_id dataset_id table_id location : String)
    (limit : Option Int) (custom_query : Option String) (e1 e2 : String)
    (h1 : runQuery (read_table_query project_id dataset_id table_id limit custom_query) = .error e1)
    (h2 : getSchema (project_id ++ "." ++ dataset_id ++ "." ++ table_id) = .error e2) :
    _read_table runQuery project_id dataset_id table_id location limit custom_query =
      .error ("Error reading table " ++
        (project_id ++ "." ++ dataset_id ++ "." ++ table_id) ++ ": " ++ e1) ∧
    _get_table_schema getSchema project_id dataset_id table_id location =
      .error ("Error getting table schema for " ++
        (project_id ++ "." ++ dataset_id ++ "." ++ table_id) ++ ": " ++ e2) := by
  constructor
  · simp [_read_table, wrap_read_error, h1]
  · simp [_get_table_schema, h2]

/-- Witness for C9 at a concrete input: a failing remote call surfaces as a
wrapped error naming p.d.t and the cause. -/
theorem claim_c9_witness :
    _read_table (fun _ => (.error "boom" : Except String Nat)) "p" "d" "t" "US"
        Option.none Option.none =
      .error ("Error reading table " ++ ("p" ++ "." ++ "d" ++ "." ++ "t") ++ ": " ++ "boom") ∧
    _get_table_schema (fun _ => (.error "gone" : Except String Nat)) "p" "d" "t" "US" =
      .error ("Error getting table schema for " ++ ("p" ++ "." ++ "d" ++ "." ++ "t") ++ ": " ++ "gone") :=
  claim_c9 (fun _ => .error "boom") (fun _ => .error "gone") "p" "d" "t" "US"
    Option.none Option.none "boom" "gone" rfl rfl

/-- Claim C7 (confirmed against the invoker modelled from the spec): when the
producer fails, the failure propagates, the store is unchanged so nothing is
memoized for that key, and a subsequent invocation with the same key runs the
producer again. -/
theorem claim_c7 {V E : Type} (store : CacheStore V) (now now2 : Nat) (key : CacheKey)
    (ttl : Nat) (producer producer2 : Unit → Except E V) (e : E)
    (hmiss : storeGet store key = none) (hfail : producer () = .error e) :
    (invoke store now key ttl producer).result = .error e ∧
    (invoke store now key ttl producer).store = store ∧
    (invoke store now key ttl producer).producerCalled = true ∧
    (invoke (invoke store now key ttl producer).store now2 key ttl producer2).producerCalled
      = true := by
  have h1 := invoke_miss_error store now key ttl producer e hmiss hfail
  refine ⟨by rw [h1], by rw [h1], by rw [h1], ?_⟩
  rw [h1]
  simp only [invoke, hmiss]
  cases producer2 () <;> simp

/-- Witness for C7 at a concrete input: a failing producer propagates and the
store stays empty. -/
theorem claim_c7_witness :
    storeGet ([] : CacheStore Nat) (build "get_projects" [] 0) = none ∧
    (invoke ([] : CacheStore Nat) 0 (build "get_projects" [] 0) cache_timeout
        (fun _ => (.error "down" : Except String Nat))).result = .error "down" ∧
    (invoke ([] : CacheStore Nat) 0 (build "get_projects" [] 0) cache_timeout
        (fun _ => (.error "down" : Except String Nat))).store = [] := by
  have h := claim_c7 ([] : CacheStore Nat) 0 1 (build "get_projects" [] 0) cache_timeout
    (fun _ => (.error "down" : Except String Nat))
    (fun _ => (.error "down" : Except String Nat)) "down" rfl rfl
  exact ⟨rfl, h.1, h.2.1⟩

/-- Claim C8 (confirmed against the invoker modelled from the spec): two
invocations with the same key within the 300 second TTL window run the
producer exactly once — the first invocation runs it and stores the value,
the second returns the cached value without running it, and both return the
same result; in particular get_datasets called twice with the same project id
and the same credentials behaves this way. -/
theorem claim_c8 {V E : Type} (store : CacheStore V) (now1 now2 : Nat) (key : CacheKey)
    (producer : Unit → Except E V) (v : V)
    {W : Type} (listDatasets : Credentials → String → Except String W)
    (c : Credentials) (project_id : String) (w : W)
    (hmiss : storeGet store key = none) (hok : producer () = .ok v)
    (hd : listDatasets c project_id = .ok w)
    (hnow : now2 ≤ now1 + cache_timeout) :
    ((invoke store now1 key cache_timeout producer).result = .ok v ∧
     (invoke store now1 key cache_timeout producer).producerCalled = true ∧
     (invoke (invoke store now1 key cache_timeout producer).store now2 key cache_timeout
        producer).result = .ok v ∧
     (invoke (invoke store now1 key cache_timeout producer).store now2 key cache_timeout
        producer).producerCalled = false) ∧
    ((get_datasets listDatasets [] now1 (.live c) project_id).result = .ok w ∧
     (get_datasets listDatasets [] now1 (.live c) project_id).producerCalled = true ∧
     (get_datasets listDatasets
        (get_datasets listDatasets [] now1 (.live c) project_id).store now2
        (.live c) project_id).result = .ok w ∧
     (get_datasets listDatasets
        (get_datasets listDatasets [] now1 (.live c) project_id).store now2
        (.live c) project_id).producerCalled = false) := by
  have h1 := invoke_miss_ok store now1 key cache_timeout producer v hmiss hok
  have h2 := invoke_hit ((key, (⟨v, now1 + cache_timeout⟩ : CacheEntry V)) :: store) now2
    key cache_timeout producer ⟨v, now1 + cache_timeout⟩
    (storeGet_cons_self key ⟨v, now1 + cache_timeout⟩ store) hnow
  constructor
  · exact ⟨by rw [h1], by rw [h1], by rw [h1, h2], by rw [h1, h2]⟩
  · have g1 : get_datasets listDatasets [] now1 (.live c) project_id =
        ⟨.ok w, [(build "get_datasets" [ArgVal.str project_id] (fingerprintCred c),
          ⟨w, now1 + cache_timeout⟩)], true⟩ := by
      simp only [get_datasets, normalize_credentials]
      exact invoke_miss_ok [] now1 _ cache_timeout _ w rfl hd
    have g2 : get_datasets listDatasets
        [(build "get_datasets" [ArgVal.str project_id] (fingerprintCred c),
          ⟨w, now1 + cache_timeout⟩)] now2 (.live c) project_id =
        ⟨.ok w, [(build "get_datasets" [ArgVal.str project_id] (fingerprintCred c),
          ⟨w, now1 + cache_timeout⟩)], false⟩ := by
      simp only [get_datasets, normalize_credentials]
      exact invoke_hit _ now2 _ cache_timeout _ ⟨w, now1 + cache_timeout⟩
        (storeGet_cons_self _ _ _) hnow
    exact ⟨by rw [g1], by rw [g1], by rw [g1, g2], by rw [g1, g2]⟩

/-- Witness for C8 at a concrete input: the second get_datasets call within
the TTL window returns the cached value without running the producer. -/
theorem claim_c8_witness :
    (get_datasets (fun _ _ => (.ok 5 : Except String Nat)) [] 0
      (.live ⟨.pyStr "t", .pyNone, .pyStr "u", .pyStr "i", .pyStr "s", .pyList []⟩)
      "proj").producerCalled = true ∧
    (get_datasets (fun _ _ => (.ok 5 : Except String Nat))
      (get_datasets (fun _ _ => (.ok 5 : Except String Nat)) [] 0
        (.live ⟨.pyStr "t", .pyNone, .pyStr "u", .pyStr "i", .pyStr "s", .pyList []⟩)
        "proj").store 1
      (.live ⟨.pyStr "t", .pyNone, .pyStr "u", .pyStr "i", .pyStr "s", .pyList []⟩)
      "proj").result = .ok 5 ∧
    (get_datasets (fun _ _ => (.ok 5 : Except String Nat))
      (get_datasets (fun _ _ => (.ok 5 : Except String Nat)) [] 0
        (.live ⟨.pyStr "t", .pyNone, .pyStr "u", .pyStr "i", .pyStr "s", .pyList []⟩)
        "proj").store 1
      (.live ⟨.pyStr "t", .pyNone, .pyStr "u", .pyStr "i", .pyStr "s", .pyList []⟩)
      "proj").producerCalled = false := by
  have h := claim_c8 ([] : CacheStore Nat) 0 1 (build "x" [] 0)
    (fun _ => (.ok 0 : Except String Nat)) 0
    (fun _ _ => (.ok 5 : Except String Nat))
    ⟨.pyStr "t", .pyNone, .pyStr "u", .pyStr "i", .pyStr "s", .pyList []⟩
    "proj" 5 rfl rfl rfl (by decide)
  exact ⟨h.2.2.1, h.2.2.2.1, h.2.2.2.2⟩

/-- Claim C1 (confirmed against the key builder modelled from the spec): for
every operation, supplying the credentials as a record (dict) or as the
equivalent live credential produced from that record yields an equal cache
key — the handler converts the dict before the memoized call, so both calls
hit the same cache entry (shown for get_projects: the second call, with the
live form, returns the value cached by the first call, with the record form,
without running the producer) — while any difference in an argument or in
the credential value yields a different key. -/
theorem claim_c1 {V : Type} (d : CredDict) (c : Credentials)
    (hd : dict_to_credentials d = .ok c)
    (listProjects : Credentials → Except String V) (v : V)
    (hp : listProjects c = .ok v) (now now2 : Nat)
    (hnow : now2 ≤ now + cache_timeout) :
    (∀ op args, credInputKey op args (.record d) = credInputKey op args (.live c)) ∧
    ((get_projects listProjects
        (get_projects listProjects [] now (.record d)).store now2 (.live c)).result
        = .ok v ∧
     (get_projects listProjects
        (get_projects listProjects [] now (.record d)).store now2 (.live c)).producerCalled
        = false) ∧
    (∀ op args1 args2 c1 c2, args1 ≠ args2 ∨ c1 ≠ c2 →
      build op args1 (fingerprintCred c1) ≠ build op args2 (fingerprintCred c2)) := by
  refine ⟨?_, ?_, ?_⟩
  · intro op args
    simp [credInputKey, normalize_credentials, hd]
  · have h1 : get_projects listProjects [] now (.record d) =
        ⟨.ok v, [(build "get_projects" [] (fingerprintCred c),
          ⟨v, now + cache_timeout⟩)], true⟩ := by
      simp only [get_projects, normalize_credentials, hd]
      exact invoke_miss_ok [] now _ cache_timeout _ v rfl hp
    have h2 : get_projects listProjects
        [(build "get_projects" [] (fingerprintCred c), ⟨v, now + cache_timeout⟩)]
        now2 (.live c) =
        ⟨.ok v, [(build "get_projects" [] (fingerprintCred c),
          ⟨v, now + cache_timeout⟩)], false⟩ := by
      simp only [get_projects, normalize_credentials]
      exact invoke_hit _ now2 _ cache_timeout _ ⟨v, now + cache_timeout⟩
        (storeGet_cons_self _ _ _) hnow
    exact ⟨by rw [h1, h2], by rw [h1, h2]⟩
  · intro op args1 args2 c1 c2 hne heq
    have hinj : args1 = args2 ∧ fingerprintCred c1 = fingerprintCred c2 := by
      simp [build, CacheKey.mk.injEq] at heq
      exact ⟨heq.1, heq.2⟩
    cases hne with
    | inl h => exact h hinj.1
    | inr h => exact h (fingerprintCred_injective hinj.2)

/-- Witness for C1 at a concrete input: the record form and the live form
produced from it key identically, the second call is a cache hit, and a
differing argument yields a different key. -/
theorem claim_c1_witness :
    dict_to_credentials [("token", PyVal.pyStr "t"), ("refresh_token", PyVal.pyNone),
      ("token_uri", PyVal.pyStr "u"), ("client_id", PyVal.pyStr "i"),
      ("client_secret", PyVal.pyStr "s"), ("scopes", PyVal.pyList [])] =
      .ok ⟨.pyStr "t", .pyNone, .pyStr "u", .pyStr "i", .pyStr "s", .pyList []⟩ ∧
    credInputKey "get_datasets" [ArgVal.str "proj"]
        (.record [("token", PyVal.pyStr "t"), ("refresh_token", PyVal.pyNone),
          ("token_uri", PyVal.pyStr "u"), ("client_id", PyVal.pyStr "i"),
          ("client_secret", PyVal.pyStr "s"), ("scopes", PyVal.pyList [])]) =
      credInputKey "get_datasets" [ArgVal.str "proj"]
        (.live ⟨.pyStr "t", .pyNone, .pyStr "u", .pyStr "i", .pyStr "s", .pyList []⟩) ∧
    (get_projects (fun _ => (.ok 3 : Except String Nat))
        (get_projects (fun _ => (.ok 3 : Except String Nat)) [] 0
          (.record [("token", PyVal.pyStr "t"), ("refresh_token", PyVal.pyNone),
            ("token_uri", PyVal.pyStr "u"), ("client_id", PyVal.pyStr "i"),
            ("client_secret", PyVal.pyStr "s"), ("scopes", PyVal.pyList [])])).store 1
        (.live ⟨.pyStr "t", .pyNone, .pyStr "u", .pyStr "i", .pyStr "s", .pyList []⟩)).producerCalled
      = false ∧
    build "op" [ArgVal.str "a"]
        (fingerprintCred ⟨.pyStr "t", .pyNone, .pyStr "u", .pyStr "i", .pyStr "s", .pyList []⟩) ≠
      build "op" [ArgVal.str "b"]
        (fingerprintCred ⟨.pyStr "t", .pyNone, .pyStr "u", .pyStr "i", .pyStr "s", .pyList []⟩) := by
  have h := claim_c1 [("token", PyVal.pyStr "t"), ("refresh_token", PyVal.pyNone),
      ("token_uri", PyVal.pyStr "u"), ("client_id", PyVal.pyStr "i"),
      ("client_secret", PyVal.pyStr "s"), ("scopes", PyVal.pyList [])]
    ⟨.pyStr "t", .pyNone, .pyStr "u", .pyStr "i", .pyStr "s", .pyList []⟩ rfl
    (fun _ => (.ok 3 : Except String Nat)) 3 rfl 0 1 (by decide)
  exact ⟨rfl, h.1 "get_datasets" [ArgVal.str "proj"], h.2.1.2,
    h.2.2 "op" [ArgVal.str "a"] [ArgVal.str "b"] _ _ (Or.inl (by decide))⟩

theorem invoke_producerCalled_of_miss {V E : Type} (store : CacheStore V) (now : Nat)
    (key : CacheKey) (ttl : Nat) (producer : Unit → Except E V)
    (hmiss : storeGet store key = none) :
    (invoke store now key ttl producer).producerCalled = true := by
  simp only [invoke, hmiss]
  cases producer () <;> rfl

/-- Claim C2 (confirmed against the key builder modelled from the spec): for
every operation and credential input the cache key is exactly the operation
name, the ordered arguments, and the fingerprint digest of the credential
record; the only strings the key carries verbatim are the operation name and
the caller-supplied arguments, so the client_secret of the credentials never
appears verbatim in the key (shown for the read_table and get_projects
keys). -/
theorem claim_c2 (cred : CredInput) (c : Credentials)
    (h : normalize_credentials cred = .ok c)
    (project_id dataset_id table_id location : String)
    (limit : Option Int) (custom_query : Option String) (s : String)
    (hs : c.client_secret = .pyStr s)
    (hargs : s ∉ (["read_table", "get_projects", project_id, dataset_id, table_id,
      location] : List String))
    (hcq : custom_query ≠ some s) :
    (∀ op args, credInputKey op args cred = .ok (build op args (fingerprintCred c))) ∧
    s ∉ (build "read_table"
      (read_table_args project_id dataset_id table_id location limit custom_query)
      (fingerprintCred c)).verbatimStrings ∧
    s ∉ (build "get_projects" [] (fingerprintCred c)).verbatimStrings := by
  simp only [List.mem_cons, List.mem_singleton, not_or] at hargs
  obtain ⟨hop1, hop2, hpid, hdid, htid, hloc, -⟩ :
      ¬s = "read_table" ∧ ¬s = "get_projects" ∧ ¬s = project_id ∧ ¬s = dataset_id ∧
        ¬s = table_id ∧ ¬s = location ∧ True := by
    simp at hargs
    exact ⟨hargs.1, hargs.2.1, hargs.2.2.1, hargs.2.2.2.1, hargs.2.2.2.2.1,
      hargs.2.2.2.2.2, trivial⟩
  refine ⟨fun op args => by simp [credInputKey, h, Except.map], ?_, ?_⟩
  · cases custom_query with
    | none =>
        simp [CacheKey.verbatimStrings, build, read_table_args, argStrings]
        exact ⟨hop1, hpid, hdid, htid, hloc⟩
    | some q =>
        have hq : ¬s = q := fun hsq => hcq (by rw [hsq])
        simp [CacheKey.verbatimStrings, build, read_table_args, argStrings]
        exact ⟨hop1, hpid, hdid, htid, hloc, hq⟩
  · simp [CacheKey.verbatimStrings, build]
    exact hop2

/-- Witness for C2 at a concrete input: a credential whose client_secret is
SECRET yields a read_table key that never carries SECRET verbatim, and the
key is the built triple of operation, arguments and fingerprint. -/
theorem claim_c2_witness :
    "SECRET" ∉ (build "read_table"
      (read_table_args "p" "d" "t" "US" Option.none Option.none)
      (fingerprintCred ⟨.pyStr "tok", .pyNone, .pyStr "u", .pyStr "i",
        .pyStr "SECRET", .pyList []⟩)).verbatimStrings ∧
    credInputKey "get_projects" []
        (.live ⟨.pyStr "tok", .pyNone, .pyStr "u", .pyStr "i", .pyStr "SECRET", .pyList []⟩) =
      .ok (build "get_projects" []
        (fingerprintCred ⟨.pyStr "tok", .pyNone, .pyStr "u", .pyStr "i",
          .pyStr "SECRET", .pyList []⟩)) := by
  have h := claim_c2
    (.live ⟨.pyStr "tok", .pyNone, .pyStr "u", .pyStr "i", .pyStr "SECRET", .pyList []⟩)
    ⟨.pyStr "tok", .pyNone, .pyStr "u", .pyStr "i", .pyStr "SECRET", .pyList []⟩
    rfl "p" "d" "t" "US" Option.none Option.none "SECRET" rfl (by decide) (by decide)
  exact ⟨h.2.1, h.1 "get_projects" []⟩

/-- Claim C3 (confirmed): for every well-formed credential record — a dict
whose keys are exactly the six fields token, refresh_token, token_uri,
client_id, client_secret, scopes — converting to the live form and back
yields a dict equal to the original (equal as Python dicts: same value at
every key, compared here on the six record keys, which both dicts lie
within). -/
theorem claim_c3 (d : CredDict) (h : wellFormedRecord d) :
    ∃ c, dict_to_credentials d = .ok c ∧
      canonicalRecord (credentials_to_dict c) = canonicalRecord d := by
  have hmemkeys : ∀ k, k ∈ credentialKeys → k ∈ d.map Prod.fst :=
    fun k hk => h.mem_iff.mpr hk
  obtain ⟨tok, htok⟩ := Option.isSome_iff_exists.mp
    (lookup_isSome_of_mem_keys "token" d (hmemkeys "token" (by simp [credentialKeys])))
  obtain ⟨rt, hrt⟩ := Option.isSome_iff_exists.mp
    (lookup_isSome_of_mem_keys "refresh_token" d
      (hmemkeys "refresh_token" (by simp [credentialKeys])))
  obtain ⟨tu, htu⟩ := Option.isSome_iff_exists.mp
    (lookup_isSome_of_mem_keys "token_uri" d
      (hmemkeys "token_uri" (by simp [credentialKeys])))
  obtain ⟨ci, hci⟩ := Option.isSome_iff_exists.mp
    (lookup_isSome_of_mem_keys "client_id" d
      (hmemkeys "client_id" (by simp [credentialKeys])))
  obtain ⟨cs, hcs⟩ := Option.isSome_iff_exists.mp
    (lookup_isSome_of_mem_keys "client_secret" d
      (hmemkeys "client_secret" (by simp [credentialKeys])))
  obtain ⟨sc, hsc⟩ := Option.isSome_iff_exists.mp
    (lookup_isSome_of_mem_keys "scopes" d (hmemkeys "scopes" (by simp [credentialKeys])))
  have hguard : d.all (fun p => credentialKeys.contains p.1) = true := by
    rw [List.all_eq_true]
    intro p hp
    exact List.elem_eq_true_of_mem (h.mem_iff.mp (List.mem_map_of_mem Prod.fst hp))
  refine ⟨⟨tok, (List.lookup "refresh_token" d).getD .pyNone,
    (List.lookup "token_uri" d).getD .pyNone,
    (List.lookup "client_id" d).getD .pyNone,
    (List.lookup "client_secret" d).getD .pyNone,
    (List.lookup "scopes" d).getD .pyNone⟩, ?_, ?_⟩
  · unfold dict_to_credentials
    rw [if_pos hguard, htok]
  · simp only [canonicalRecord, credentialKeys, List.map_cons, List.map_nil,
      credentials_to_dict]
    rw [htok, hrt, htu, hci, hcs, hsc]
    simp [List.lookup]

/-- Witness for C3 at a concrete well-formed record (keys deliberately out of
the canonical order): the round trip through the live form preserves it. -/
theorem claim_c3_witness :
    wellFormedRecord [("scopes", PyVal.pyList ["a", "b"]), ("token", PyVal.pyStr "t"),
      ("refresh_token", PyVal.pyNone), ("token_uri", PyVal.pyStr "u"),
      ("client_id", PyVal.pyStr "i"), ("client_secret", PyVal.pyStr "s")] ∧
    ∃ c, dict_to_credentials [("scopes", PyVal.pyList ["a", "b"]),
        ("token", PyVal.pyStr "t"), ("refresh_token", PyVal.pyNone),
        ("token_uri", PyVal.pyStr "u"), ("client_id", PyVal.pyStr "i"),
        ("client_secret", PyVal.pyStr "s")] = .ok c ∧
      canonicalRecord (credentials_to_dict c) =
        canonicalRecord [("scopes", PyVal.pyList ["a", "b"]), ("token", PyVal.pyStr "t"),
          ("refresh_token", PyVal.pyNone), ("token_uri", PyVal.pyStr "u"),
          ("client_id", PyVal.pyStr "i"), ("client_secret", PyVal.pyStr "s")] := by
  refine ⟨by decide, claim_c3 _ (by decide)⟩

/-- Claim C4 as stated is false: a credential record lacking token_uri but
containing a refresh token does not fail — _dict_to_credentials builds the
live credential without validation, and get_projects proceeds to run the
remote producer and returns its value; no error of any kind is raised before
the remote call. -/
theorem claim_c4_cex :
    (get_projects (fun _ => (.ok 0 : Except String Nat)) [] 0
      (.record [("token", PyVal.pyStr "t"), ("refresh_token", PyVal.pyStr "r"),
        ("client_id", PyVal.pyStr "i"), ("client_secret", PyVal.pyStr "s"),
        ("scopes", PyVal.pyList [])])).producerCalled = true ∧
    (get_projects (fun _ => (.ok 0 : Except String Nat)) [] 0
      (.record [("token", PyVal.pyStr "t"), ("refresh_token", PyVal.pyStr "r"),
        ("client_id", PyVal.pyStr "i"), ("client_secret", PyVal.pyStr "s"),
        ("scopes", PyVal.pyList [])])).result = .ok 0 := by
  exact ⟨rfl, rfl⟩

/-- Claim C4 (corrected): calling an operation with a credential record that
lacks token_uri but contains a refresh token does not fail before the remote
call — the conversion succeeds, the resulting live credential has token_uri
None, and the operation proceeds to run the remote producer (the code
performs no credential validation and defines no InvalidCredentialError; a
missing token endpoint would only surface later, inside the remote call,
when the provider attempts a token refresh). -/
theorem claim_c4 {V : Type} (d : CredDict) (t r : PyVal)
    (hkeys : d.all (fun p => credentialKeys.contains p.1) = true)
    (htok : List.lookup "token" d = some t)
    (hturi : List.lookup "token_uri" d = none)
    (hrt : List.lookup "refresh_token" d = some r)
    (listProjects : Credentials → Except String V) (now : Nat) :
    (∃ c, dict_to_credentials d = .ok c ∧ c.token_uri = .pyNone ∧ c.refresh_token = r) ∧
    (get_projects listProjects [] now (.record d)).producerCalled = true := by
  have hok : dict_to_credentials d =
      .ok ⟨t, (List.lookup "refresh_token" d).getD .pyNone,
        (List.lookup "token_uri" d).getD .pyNone,
        (List.lookup "client_id" d).getD .pyNone,
        (List.lookup "client_secret" d).getD .pyNone,
        (List.lookup "scopes" d).getD .pyNone⟩ := by
    unfold dict_to_credentials
    rw [if_pos hkeys, htok]
  constructor
  · exact ⟨_, hok, by simp [hturi], by simp [hrt]⟩
  · simp only [get_projects, normalize_credentials, hok]
    exact invoke_producerCalled_of_miss [] now _ cache_timeout _ rfl

/-- Witness for C4 at a concrete input: the five-field record without
token_uri converts successfully and the remote producer runs. -/
theorem claim_c4_witness :
    List.lookup "token_uri" ([("token", PyVal.pyStr "t"), ("refresh_token", PyVal.pyStr "r"),
      ("client_id", PyVal.pyStr "i"), ("client_secret", PyVal.pyStr "s"),
      ("scopes", PyVal.pyList [])] : CredDict) = none ∧
    List.lookup "refresh_token" ([("token", PyVal.pyStr "t"), ("refresh_token", PyVal.pyStr "r"),
      ("client_id", PyVal.pyStr "i"), ("client_secret", PyVal.pyStr "s"),
      ("scopes", PyVal.pyList [])] : CredDict) = some (PyVal.pyStr "r") ∧
    (∃ c, dict_to_credentials [("token", PyVal.pyStr "t"), ("refresh_token", PyVal.pyStr "r"),
        ("client_id", PyVal.pyStr "i"), ("client_secret", PyVal.pyStr "s"),
        ("scopes", PyVal.pyList [])] = .ok c ∧
      c.token_uri = .pyNone ∧ c.refresh_token = PyVal.pyStr "r") ∧
    (get_projects (fun _ => (.ok 7 : Except String Nat)) [] 2
      (.record [("token", PyVal.pyStr "t"), ("refresh_token", PyVal.pyStr "r"),
        ("client_id", PyVal.pyStr "i"), ("client_secret", PyVal.pyStr "s"),
        ("scopes", PyVal.pyList [])])).producerCalled = true := by
  have h := claim_c4 [("token", PyVal.pyStr "t"), ("refresh_token", PyVal.pyStr "r"),
      ("client_id", PyVal.pyStr "i"), ("client_secret", PyVal.pyStr "s"),
      ("scopes", PyVal.pyList [])] (PyVal.pyStr "t") (PyVal.pyStr "r")
    (by decide) rfl rfl rfl (fun _ => (.ok 7 : Except String Nat)) 2
  exact ⟨rfl, rfl, h.1, h.2⟩
